import Mathlib

/-!
Verification development for the ai-updates-monitor change-detection pipeline.

The Python sources under `src/lambda` are shallowly embedded as executable
Lean definitions.  External collaborators (the `feedparser` XML parser,
`BeautifulSoup` element queries, the HTTP transport, DynamoDB, wall-clock
time) are modelled as inputs at the exact call boundary where the repository
code consumes their results; everything the repository itself computes is
translated directly from the source.
-/

set_option maxRecDepth 100000

namespace Monitor

/-! ## Python string primitives

Models of the Python `str` operations the pipeline uses.  Strings are worked
with as `List Char`; Python indexes and slices strings by code point, which
matches `String.data` in Lean.  Case mapping is modelled for ASCII (the
repository lowercases only feed titles; the Unicode special cases of
`str.lower` are outside the model). -/

/-- Whitespace recognised by Python's `str.split()` / `str.strip()`
(ASCII subset: space, tab, newline, carriage return, vertical tab, form feed). -/
def isPySpace (c : Char) : Bool :=
  c = ' ' || c = '\t' || c = '\n' || c = '\r' || c.toNat = 11 || c.toNat = 12

/-- ASCII lower-casing of one character, as `str.lower` acts on ASCII. -/
def lowerChar (c : Char) : Char :=
  if 65 ≤ c.toNat ∧ c.toNat ≤ 90 then Char.ofNat (c.toNat + 32) else c

/-- Model of `s.lower()` (ASCII fragment). -/
def pyLower (s : String) : String := String.mk (s.data.map lowerChar)

/-- Model of `s.split()`: split on runs of whitespace, dropping empty words.
The accumulator holds the current word reversed. -/
def splitWordsAux : List Char → List Char → List (List Char)
  | [], acc => if acc.isEmpty then [] else [acc.reverse]
  | c :: cs, acc =>
      if isPySpace c then
        if acc.isEmpty then splitWordsAux cs [] else acc.reverse :: splitWordsAux cs []
      else splitWordsAux cs (c :: acc)

/-- Model of `" ".join(s.split())`: collapse whitespace runs and trim ends. -/
def pyNormWs (s : String) : String :=
  String.intercalate " " ((splitWordsAux s.data []).map String.mk)

/-- Model of `s.strip()`. -/
def pyStrip (s : String) : String :=
  String.mk (((s.data.dropWhile isPySpace).reverse.dropWhile isPySpace).reverse)

/-- Model of the Python slice `s[:n]` (slicing counts code points). -/
def pyTake (s : String) (n : Nat) : String := String.mk (s.data.take n)

/-- Code-point comparison of character lists, as Python compares `str` with `<`. -/
def charListLe : List Char → List Char → Bool
  | [], _ => true
  | _ :: _, [] => false
  | a :: as, b :: bs =>
      if a.toNat < b.toNat then true
      else if b.toNat < a.toNat then false
      else charListLe as bs

/-- Strict code-point comparison of character lists. -/
def charListLt : List Char → List Char → Bool
  | [], [] => false
  | [], _ :: _ => true
  | _ :: _, [] => false
  | a :: as, b :: bs =>
      if a.toNat < b.toNat then true
      else if b.toNat < a.toNat then false
      else charListLt as bs

/-- Model of Python string `<=` (used through `list.sort(key=...)`). -/
def strLe (a b : String) : Bool := charListLe a.data b.data

/-- Model of Python truthiness for an optional string: `None` and `""` are falsy. -/
def pyTruthy : Option String → Bool
  | none => false
  | some s => !(s = "")

/-- Model of `a or d` for an optional/possibly-empty string `a` with fallback `d`. -/
def pyOr (a : Option String) (d : String) : String :=
  match a with
  | some s => if s = "" then d else s
  | none => d

/-- Prefix test on character lists (model of `str.startswith`). -/
def listIsPrefixOf : List Char → List Char → Bool
  | [], _ => true
  | _ :: _, [] => false
  | a :: as, b :: bs => if a = b then listIsPrefixOf as bs else false

/-- Model of `s.startswith(p)`. -/
def pyStartsWith (s p : String) : Bool := listIsPrefixOf p.data s.data

/-! ## UTF-8 and SHA-256

The fingerprint engine hashes `content.encode("utf-8")` with
`hashlib.sha256`.  Both are reproduced executably: bytes are `Nat < 256`,
32-bit words are `Nat` reduced with `% 2^32`. -/

/-- UTF-8 encoding of one code point. -/
def utf8Char (n : Nat) : List Nat :=
  if n < 128 then [n]
  else if n < 2048 then [192 + n / 64, 128 + n % 64]
  else if n < 65536 then [224 + n / 4096, 128 + (n / 64) % 64, 128 + n % 64]
  else [240 + n / 262144, 128 + (n / 4096) % 64, 128 + (n / 64) % 64, 128 + n % 64]

/-- Model of `s.encode("utf-8")` as a byte list. -/
def strBytes (s : String) : List Nat := (s.data.map (fun c => utf8Char c.toNat)).flatten

/-- Reduction modulo 2^32. -/
def u32 (x : Nat) : Nat := x % 4294967296

/-- Right rotation of a 32-bit word by `n` bits. -/
def rotr (n x : Nat) : Nat := (x >>> n) ||| (u32 (x <<< (32 - n)))

/-- SHA-256 big sigma 0. -/
def bsig0 (x : Nat) : Nat := rotr 2 x ^^^ rotr 13 x ^^^ rotr 22 x

/-- SHA-256 big sigma 1. -/
def bsig1 (x : Nat) : Nat := rotr 6 x ^^^ rotr 11 x ^^^ rotr 25 x

/-- SHA-256 small sigma 0. -/
def ssig0 (x : Nat) : Nat := rotr 7 x ^^^ rotr 18 x ^^^ (x >>> 3)

/-- SHA-256 small sigma 1. -/
def ssig1 (x : Nat) : Nat := rotr 17 x ^^^ rotr 19 x ^^^ (x >>> 10)

/-- SHA-256 choice function. -/
def chf (x y z : Nat) : Nat := (x &&& y) ^^^ ((x ^^^ 4294967295) &&& z)

/-- SHA-256 majority function. -/
def majf (x y z : Nat) : Nat := (x &&& y) ^^^ (x &&& z) ^^^ (y &&& z)

/-- Big-endian 8-byte encoding of a length in bits. -/
def be64 (n : Nat) : List Nat :=
  [(n >>> 56) % 256, (n >>> 48) % 256, (n >>> 40) % 256, (n >>> 32) % 256,
   (n >>> 24) % 256, (n >>> 16) % 256, (n >>> 8) % 256, n % 256]

/-- SHA-256 message padding. -/
def padMsg (msg : List Nat) : List Nat :=
  let L := msg.length
  let k := (120 - ((L + 1) % 64)) % 64
  msg ++ 128 :: List.replicate k 0 ++ be64 (8 * L)

/-- Group bytes four at a time into big-endian 32-bit words. -/
def bytesToWords : List Nat → List Nat
  | b0 :: b1 :: b2 :: b3 :: rest =>
      (((b0 * 256 + b1) * 256 + b2) * 256 + b3) :: bytesToWords rest
  | _ => []

/-- Message-schedule extension; the accumulator holds the words most recent
first, so `w[t-2]` is at index 1, `w[t-7]` at 6, `w[t-15]` at 14, `w[t-16]` at 15. -/
def sched : Nat → List Nat → List Nat
  | 0, acc => acc.reverse
  | n + 1, acc =>
      let w := u32 (ssig1 (acc.getD 1 0) + acc.getD 6 0 + ssig0 (acc.getD 14 0) + acc.getD 15 0)
      sched n (w :: acc)

/-- Working state of the SHA-256 compression function. -/
structure Hash8 where
  a : Nat
  b : Nat
  c : Nat
  d : Nat
  e : Nat
  f : Nat
  g : Nat
  h : Nat
deriving DecidableEq

/-- SHA-256 round constants (decimal). -/
def shaK : List Nat :=
  [1116352408, 1899447441, 3049323471, 3921009573,
   961987163, 1508970993, 2453635748, 2870763221,
   3624381080, 310598401, 607225278, 1426881987,
   1925078388, 2162078206, 2614888103, 3248222580,
   3835390401, 4022224774, 264347078, 604807628,
   770255983, 1249150122, 1555081692, 1996064986,
   2554220882, 2821834349, 2952996808, 3210313671,
   3336571891, 3584528711, 113926993, 338241895,
   666307205, 773529912, 1294757372, 1396182291,
   1695183700, 1986661051, 2177026350, 2456956037,
   2730485921, 2820302411, 3259730800, 3345764771,
   3516065817, 3600352804, 4094571909, 275423344,
   430227734, 506948616, 659060556, 883997877,
   958139571, 1322822218, 1537002063, 1747873779,
   1955562222, 2024104815, 2227730452, 2361852424,
   2428436474, 2756734187, 3204031479, 3329325298]

/-- SHA-256 initial hash value (decimal). -/
def shaH0 : Hash8 :=
  ⟨1779033703, 3144134277, 1013904242, 2773480762, 1359893119, 2600822924, 528734635, 1541459225⟩

/-- One SHA-256 round, consuming a round constant paired with a schedule word. -/
def shaRound (st : Hash8) (kw : Nat × Nat) : Hash8 :=
  let t1 := u32 (st.h + bsig1 st.e + chf st.e st.f st.g + kw.1 + kw.2)
  let t2 := u32 (bsig0 st.a + majf st.a st.b st.c)
  ⟨u32 (t1 + t2), st.a, st.b, st.c, u32 (st.d + t1), st.e, st.f, st.g⟩

/-- SHA-256 compression of one 64-byte block. -/
def compress (st : Hash8) (block : List Nat) : Hash8 :=
  let w := sched 48 (bytesToWords block).reverse
  let fin := (shaK.zip w).foldl shaRound st
  ⟨u32 (st.a + fin.a), u32 (st.b + fin.b), u32 (st.c + fin.c), u32 (st.d + fin.d),
   u32 (st.e + fin.e), u32 (st.f + fin.f), u32 (st.g + fin.g), u32 (st.h + fin.h)⟩

/-- Split a byte list into 64-byte blocks; the first argument is fuel that the
caller instantiates with the list length. -/
def toBlocksAux : Nat → List Nat → List (List Nat)
  | 0, _ => []
  | _, [] => []
  | fuel + 1, l => l.take 64 :: toBlocksAux fuel (l.drop 64)

/-- Split a byte list into 64-byte blocks. -/
def toBlocks (l : List Nat) : List (List Nat) := toBlocksAux l.length l

/-- SHA-256 of a byte list, as the eight-word state. -/
def sha256Words (msg : List Nat) : Hash8 := (toBlocks (padMsg msg)).foldl compress shaH0

/-- Lowercase hex digit. -/
def hexChar (n : Nat) : Char := if n < 10 then Char.ofNat (48 + n) else Char.ofNat (87 + n)

/-- Eight-digit lowercase hex of a 32-bit word. -/
def hex8 (w : Nat) : List Char :=
  [hexChar ((w >>> 28) % 16), hexChar ((w >>> 24) % 16), hexChar ((w >>> 20) % 16),
   hexChar ((w >>> 16) % 16), hexChar ((w >>> 12) % 16), hexChar ((w >>> 8) % 16),
   hexChar ((w >>> 4) % 16), hexChar (w % 16)]

/-- Model of `hashlib.sha256(bytes).hexdigest()`. -/
def sha256Hex (msg : List Nat) : String :=
  let st := sha256Words msg
  String.mk (hex8 st.a ++ hex8 st.b ++ hex8 st.c ++ hex8 st.d ++
             hex8 st.e ++ hex8 st.f ++ hex8 st.g ++ hex8 st.h)

/-- Test vector: SHA-256 of the empty message. -/
theorem sha256_vector_nil :
    sha256Hex [] = "e3b0c44298fc1c149afbf4c8996fb92427ae41e4649b934ca495991b7852b855" := by
  decide

/-- Test vector: SHA-256 of "abc". -/
theorem sha256_vector_abc :
    sha256Hex (strBytes "abc") = "ba7816bf8f01cfea414140de5dae2223b00361a396177a9cb410ff61f20015ad" := by
  decide

/-- Test vector spanning four blocks: SHA-256 of 200 copies of "a". -/
theorem sha256_vector_200a :
    sha256Hex (List.replicate 200 97) =
      "c2a908d98f5df987ade41b5fce213067efbcc21ef2240212a41e54b5e7c28ae5" := by
  decide

/-! ## Extracted items and the fingerprint engine

Embedding of `src/lambda/services/fingerprint.py`.  An extracted item is the
dict built by the adapters; `summary` is optional because the
`html_articles` adapter emits items without a `summary` key, and `tag` is
only set by the GitHub releases adapter.  `compute_fingerprint` reads the
keys `id`, `title`, `link` with default `""`, which the model mirrors with
plain `String` fields. -/

/-- An extracted item (the adapter output dict). -/
structure Item where
  id : String
  title : String
  link : String
  date : String
  summary : Option String
  tag : Option String
deriving DecidableEq

/-- Convenience constructor for items carrying only id/title/link. -/
def mkItem (id title link : String) : Item := ⟨id, title, link, "", some "", none⟩

/-- Model of `_normalize_text`: strip, collapse whitespace, lowercase. -/
def normalizeText (text : String) : String :=
  if text = "" then "" else pyLower (pyNormWs text)

/-- Projection of an item to the stable fields used for fingerprinting
(`normalized_item` in `compute_fingerprint`). -/
structure NormItem where
  id : String
  title : String
  link : String
deriving DecidableEq

/-- Model of the dict `{"id": ..., "title": _normalize_text(...), "link": ...}`. -/
def normalizeItem (it : Item) : NormItem := ⟨it.id, normalizeText it.title, it.link⟩

/-- Sort key `lambda x: x.get("id") or x.get("link") or ""`. -/
def sortKey (n : NormItem) : String :=
  if n.id = "" then (if n.link = "" then "" else n.link) else n.id

/-- Key-based comparison used by the stable sort. -/
def keyLe (a b : NormItem) : Bool := strLe (sortKey a) (sortKey b)

/-- Stable insertion of `a` into an already-sorted list: `a` goes after every
element whose key is less than or equal to `a`'s, preserving the original
relative order — the characterising property of Python's stable `list.sort`. -/
def sinsert (a : NormItem) : List NormItem → List NormItem
  | [] => [a]
  | b :: l => if keyLe b a then b :: sinsert a l else a :: b :: l

/-- Stable sort by `sortKey`, modelling `normalized.sort(key=...)`.  Any two
stable sorts agree, so insertion sort is a faithful model of Timsort. -/
def pySortNorm (l : List NormItem) : List NormItem :=
  l.foldl (fun acc a => sinsert a acc) []

/-- Left brace character (JSON object opener). -/
def obrace : String := "\x7b"

/-- Right brace character (JSON object closer). -/
def cbrace : String := "\x7d"

/-- Four-digit lowercase hex, for `\uXXXX` escapes. -/
def hex4 (n : Nat) : List Char :=
  [hexChar ((n >>> 12) % 16), hexChar ((n >>> 8) % 16), hexChar ((n >>> 4) % 16), hexChar (n % 16)]

/-- Escape of one character in `json.dumps(..., ensure_ascii=True)`:
quote and backslash get a backslash, the five C0 controls with short forms
use them, other characters outside printable ASCII become `\uXXXX`
(a surrogate pair above the BMP). -/
def jsonEscapeChar (c : Char) : List Char :=
  if c = '"' then ['\\', '"']
  else if c = '\\' then ['\\', '\\']
  else if c.toNat = 8 then ['\\', 'b']
  else if c = '\t' then ['\\', 't']
  else if c = '\n' then ['\\', 'n']
  else if c.toNat = 12 then ['\\', 'f']
  else if c = '\r' then ['\\', 'r']
  else if 32 ≤ c.toNat ∧ c.toNat ≤ 126 then [c]
  else if c.toNat < 65536 then '\\' :: 'u' :: hex4 c.toNat
  else
    let v := c.toNat - 65536
    '\\' :: 'u' :: hex4 (55296 + v / 1024) ++ '\\' :: 'u' :: hex4 (56320 + v % 1024)

/-- JSON string literal of `s`, as `json.dumps` renders it. -/
def jsonStr (s : String) : String :=
  String.mk ('"' :: (s.data.map jsonEscapeChar).flatten ++ ['"'])

/-- Serialization of one normalized item with `sort_keys=True` and the
default separators: keys in the order `id`, `link`, `title`. -/
def serNorm (n : NormItem) : String :=
  obrace ++ "\"id\": " ++ jsonStr n.id ++ ", \"link\": " ++ jsonStr n.link ++
    ", \"title\": " ++ jsonStr n.title ++ cbrace

/-- Comma-separated join, as `json.dumps` lays out list elements. -/
def joinComma : List String → String
  | [] => ""
  | [s] => s
  | s :: rest => s ++ ", " ++ joinComma rest

/-- Serialization of the normalized item list as a JSON array. -/
def serNormList (ns : List NormItem) : String :=
  "[" ++ joinComma (ns.map serNorm) ++ "]"

/-- Model of `compute_fingerprint(items, max_items)`: empty list hashes the
literal marker `b"empty"`; otherwise truncate, project, stable-sort by
id-else-link, serialize deterministically and hash with SHA-256. -/
def computeFingerprint (items : List Item) (maxItems : Nat) : String :=
  if items = [] then sha256Hex (strBytes "empty")
  else
    let itemsToHash := items.take maxItems
    let normalized := itemsToHash.map normalizeItem
    let sorted := pySortNorm normalized
    sha256Hex (strBytes (serNormList sorted))

/-- Evaluation check: the sentinel digest of the empty item list matches
`hashlib.sha256(b"empty").hexdigest()`. -/
theorem fingerprint_empty_eval :
    computeFingerprint [] 10 =
      "2e1cfa82b035c26cbbbdae632cea070514eb8b773f616aaeaf668e2f0be8f10d" := by
  decide

/-- Evaluation check: the fingerprint of the spec's example item list matches
the digest the Python implementation produces. -/
theorem fingerprint_demo_eval :
    computeFingerprint [mkItem "1" "Foo" "http://x"] 10 =
      "1aba45dd01b379c626fc6817803239c172510f1d65cdebb6e8309aafc2c14eb9" := by
  decide

/-! ## Conditional fetcher

Embedding of `Fetcher.fetch` in `src/lambda/services/fetcher.py`.  The HTTP
transport is the external collaborator: a `FetchOutcome` is what the single
`session.get` call produced — a response, or one of the three exception
classes the `except` arms catch.  The function below is the `try` body of
`fetch`, which maps every outcome to a result dict without raising. -/

/-- Outcome of the underlying `session.get` call: an HTTP response (status,
reason, body text, optional `ETag` / `Last-Modified` / `Content-Type`
response headers), or a raised `asyncio.TimeoutError`, `aiohttp.ClientError`,
or any other exception. -/
inductive FetchOutcome where
  | resp (status : Nat) (reason : String) (body : String)
      (etag lastModified contentType : Option String)
  | timeout
  | clientError (msg : String)
  | unexpected (msg : String)
deriving DecidableEq

/-- Result dict of `Fetcher.fetch`; absent keys are `none` (`dict.get`
returns `None`), and `not_modified` is the truthiness of that key. -/
structure FetchRes where
  content : Option String
  etag : Option String
  last_modified : Option String
  content_type : Option String
  not_modified : Bool
  error : Option String
deriving DecidableEq

/-- Result dict with every key absent. -/
def emptyFetchRes : FetchRes := ⟨none, none, none, none, false, none⟩

/-- Lookup in an association-list model of a `dict` (`d.get(k)`). -/
def lookupKey : List (String × String) → String → Option String
  | [], _ => none
  | p :: t, k => if p.1 = k then some p.2 else lookupKey t k

/-- Assignment `d[k] = v` on an association-list model of a `dict`. -/
def setKey (l : List (String × String)) (k v : String) : List (String × String) :=
  if (lookupKey l k).isSome then l.map (fun p => if p.1 = k then (k, v) else p)
  else l ++ [(k, v)]

/-- Request headers `fetch` builds: `dict(headers or {})`, then
`If-None-Match` from a truthy `etag`, then `If-Modified-Since` from a truthy
`last_modified`. -/
def fetchReqHeaders (etag lastModified : Option String)
    (headers : List (String × String)) : List (String × String) :=
  let h0 := headers
  let h1 := match etag with
    | some e => if e = "" then h0 else setKey h0 "If-None-Match" e
    | none => h0
  match lastModified with
  | some lm => if lm = "" then h1 else setKey h1 "If-Modified-Since" lm
  | none => h1

/-- Model of the `try` body of `Fetcher.fetch`: 304 yields `not_modified`,
status ≥ 400 yields an error dict, success carries body and response
validators, and each caught exception class yields its error dict. -/
def fetchResult (outcome : FetchOutcome) : FetchRes :=
  match outcome with
  | .resp status reason body etg lm ct =>
      if status = 304 then { emptyFetchRes with not_modified := true }
      else if 400 ≤ status then
        { emptyFetchRes with error := some ("HTTP " ++ toString status ++ ": " ++ reason) }
      else
        { emptyFetchRes with
            content := some body, etag := etg, last_modified := lm,
            content_type := some (ct.getD "") }
  | .timeout => { emptyFetchRes with error := some "Request timed out" }
  | .clientError m => { emptyFetchRes with error := some ("Client error: " ++ m) }
  | .unexpected m => { emptyFetchRes with error := some ("Unexpected error: " ++ m) }

/-- Model of `Fetcher.fetch`: the headers it sends with the GET, and the
result dict it returns for the given transport outcome. -/
def fetch (etag lastModified : Option String) (headers : List (String × String))
    (outcome : FetchOutcome) : List (String × String) × FetchRes :=
  (fetchReqHeaders etag lastModified headers, fetchResult outcome)

/-! ## State store client

Embedding of `StateManager` in `src/lambda/services/state.py`.  DynamoDB is
external; what matters to the claims is the item `update_state` writes with
`put_item`, which replaces the whole record for the source id. -/

/-- Stored state for a source as `get_state` returns it (each key read with
`.get`, so absent attributes are `none`). -/
structure StoredState where
  source_id : Option String
  fingerprint : Option String
  etag : Option String
  last_modified : Option String
  last_seen_utc : Option String
  last_item_key : Option String
deriving DecidableEq

/-- Item written by `put_item`: `source_id`, `fingerprint` and
`last_seen_utc` always, the three optional attributes only when truthy. -/
structure PutItem where
  source_id : String
  fingerprint : String
  last_seen_utc : String
  etag : Option String
  last_modified : Option String
  last_item_key : Option String
deriving DecidableEq

/-- Keep an optional attribute only when truthy (`if etag: item["etag"] = etag`). -/
def keepTruthy (o : Option String) : Option String :=
  match o with
  | some s => if s = "" then none else some s
  | none => none

/-- Model of `StateManager.update_state`: the item handed to `put_item`,
with `now` standing for `datetime.now(timezone.utc).isoformat()`. -/
def updateState (sourceId fingerprint : String)
    (etag lastModified lastItemKey : Option String) (now : String) : PutItem :=
  ⟨sourceId, fingerprint, now, keepTruthy etag, keepTruthy lastModified, keepTruthy lastItemKey⟩

/-- View of a written item through a subsequent `get_state`: `put_item`
replaced the record, so absent attributes read back as `None`. -/
def readBack (p : PutItem) : StoredState :=
  ⟨some p.source_id, some p.fingerprint, p.etag, p.last_modified, some p.last_seen_utc, p.last_item_key⟩

/-! ## Adapter registry

Embedding of `get_adapter` in `src/lambda/adapters/__init__.py`. -/

/-- Keys of the `_ADAPTERS` registry, in definition order. -/
def registeredAdapters : List String :=
  ["rss", "atom", "github_releases_atom", "html_articles", "html_changelog"]

/-- Model of `get_adapter`: the adapter type back on success, or the
`ValueError` message for an unknown type. -/
def getAdapter (adapterType : String) : Except String String :=
  if adapterType ∈ registeredAdapters then .ok adapterType
  else .error ("Unknown adapter type: " ++ adapterType ++
    ". Available: ['rss', 'atom', 'github_releases_atom', 'html_articles', 'html_changelog']")

/-! ## Per-source processor and run orchestrator

Embedding of `process_source` and `run_monitor` in `src/lambda/handler.py`.
The collaborator calls inside the `try` block are provided through a
`ProcEnv`: the prior state `get_state` returned, the result dict
`fetcher.fetch` returned, the item list the selected adapter's `extract`
returned for the fetched content, and the timestamp `update_state` uses.
`process_source` reads `source["id"]`, `source["adapter"]` and
`source["url"]` before its `try` block, so a source dict missing one of
those keys raises `KeyError` out of the task; everything afterwards is
caught and converted to `None`. -/

/-- Source configuration dict; `none` models an absent key. -/
structure SourceCfg where
  id : Option String
  adapter : Option String
  url : Option String
  org : Option String
  name : Option String
deriving DecidableEq

/-- Collaborator responses consumed by one `process_source` call. -/
structure ProcEnv where
  prev_state : Option StoredState
  fetch_result : FetchRes
  items : List Item
  now : String
deriving DecidableEq

/-- Change record returned by `process_source` when the source changed. -/
structure Change where
  source_id : String
  org : String
  name : String
  url : String
  items : List Item
  is_new : Bool
deriving DecidableEq

/-- Model of the `try` body of `process_source`: the produced change record
(if any) and the list of `put_item` writes performed. -/
def processBody (sid url : String) (adapterType : String) (source : SourceCfg)
    (env : ProcEnv) : Option Change × List PutItem :=
  let prevFingerprint := match env.prev_state with
    | some st => st.fingerprint
    | none => none
  if env.fetch_result.not_modified then (none, [])
  else if pyTruthy env.fetch_result.error then (none, [])
  else
    let newEtag := env.fetch_result.etag
    let newLastModified := env.fetch_result.last_modified
    match getAdapter adapterType with
    | .error _ => (none, [])
    | .ok _ =>
      match env.items with
      | [] => (none, [])
      | first :: _ =>
        let newFingerprint := computeFingerprint env.items 10
        if some newFingerprint = prevFingerprint then
          (none, [updateState sid newFingerprint newEtag newLastModified none env.now])
        else
          let lastItemKey := if first.id = "" then first.link else first.id
          let w := updateState sid newFingerprint newEtag newLastModified (some lastItemKey) env.now
          (some ⟨sid, source.org.getD "Unknown", source.name.getD sid, url,
                 env.items.take 5, prevFingerprint = none⟩, [w])

/-- Model of `process_source`: `KeyError` escapes for a source dict missing
`id`, `adapter` or `url`; every failure inside the `try` block is caught and
converted to no change. -/
def processSource (source : SourceCfg) (env : ProcEnv) :
    Except String (Option Change × List PutItem) :=
  match source.id, source.adapter, source.url with
  | some sid, some adapterType, some url => .ok (processBody sid url adapterType source env)
  | _, _, _ => .error "KeyError"

instance {ε α : Type} [DecidableEq ε] [DecidableEq α] : DecidableEq (Except ε α) := fun x y =>
  match x, y with
  | .ok a, .ok b =>
    match decEq a b with
    | isTrue h => isTrue (h ▸ rfl)
    | isFalse h => isFalse (fun hc => h (Except.ok.inj hc))
  | .error a, .error b =>
    match decEq a b with
    | isTrue h => isTrue (h ▸ rfl)
    | isFalse h => isFalse (fun hc => h (Except.error.inj hc))
  | .ok _, .error _ => isFalse (fun hc => Except.noConfusion hc)
  | .error _, .ok _ => isFalse (fun hc => Except.noConfusion hc)

/-- Run summary built by `run_monitor` (the wall-clock duration and
timestamp fields are real time and not modelled). -/
structure Summary where
  status : String
  sources_checked : Nat
  changes_detected : Nat
  errors : Nat
deriving DecidableEq

/-- Model of `run_monitor` over the per-source collaborator responses:
gather the task results, count exceptions as errors, collect the non-`None`
results as changes, and return the structured summary. -/
def runMonitor (runs : List (SourceCfg × ProcEnv)) : Summary :=
  let results := runs.map (fun p => processSource p.1 p.2)
  let changes := results.filterMap (fun r =>
    match r with
    | .ok (some c, _) => some c
    | _ => none)
  let errors := results.countP (fun r =>
    match r with
    | .error _ => true
    | .ok _ => false)
  ⟨"success", runs.length, changes.length, errors⟩

/-! ## Feed adapters

Embedding of `src/lambda/adapters/rss.py`, `atom.py` and
`github_releases.py`.  The external `feedparser` library is the model
boundary: a `ParsedFeed` is what `feedparser.parse(content)` returned
(`bozo` flag and entry dicts), and each adapter's logic from that point on
is translated directly.  The `max_items` argument is the value
`_get_max_items` resolved from the source dict. -/

/-- One entry of `entry.links`: a link dict with `rel`, `type`, `href`. -/
structure FeedLink where
  rel : Option String
  type : Option String
  href : Option String
deriving DecidableEq

/-- One entry of `entry.content`: feedparser normalizes content to dicts
carrying the markup in `value`. -/
structure FeedContent where
  value : String
deriving DecidableEq

/-- A feedparser entry dict; `none` models an absent key. -/
structure FeedEntry where
  id : Option String
  guid : Option String
  title : Option String
  link : Option String
  links : List FeedLink
  published : Option String
  updated : Option String
  created : Option String
  summary : Option String
  description : Option String
  content : List FeedContent
deriving DecidableEq

/-- Result of `feedparser.parse`: the malformedness flag and the entries. -/
structure ParsedFeed where
  bozo : Bool
  entries : List FeedEntry
deriving DecidableEq

/-- Tag-stripping scan modelling `re.sub(r'<[^>]+>', '', html)`: a buffer
(reversed, including the opening `<`) is discarded when a `>` closes a
nonempty tag, and flushed literally when the tag is empty (`<>`) or the
input ends inside it — exactly the positions where the regex fails to match. -/
def stripTagsAux : List Char → Option (List Char) → List Char
  | [], none => []
  | [], some buf => buf.reverse
  | c :: cs, none =>
      if c = '<' then stripTagsAux cs (some [c]) else c :: stripTagsAux cs none
  | c :: cs, some buf =>
      if c = '>' then
        if 2 ≤ buf.length then stripTagsAux cs none
        else buf.reverse ++ c :: stripTagsAux cs none
      else stripTagsAux cs (some (c :: buf))

/-- Model of the adapters' `_clean_html`: strip tags, collapse whitespace,
strip ends. -/
def cleanHtml (s : String) : String := pyNormWs (String.mk (stripTagsAux s.data none))

/-- Summary candidate from a feedparser `content` list: the loop assigns the
cleaned, truncated value and breaks at the first non-empty one. -/
def contentSummary : List FeedContent → String
  | [] => ""
  | [c] => pyTake (cleanHtml c.value) 500
  | c :: rest =>
      let s := pyTake (cleanHtml c.value) 500
      if s = "" then contentSummary rest else s

/-- Link resolution of `RssAdapter._parse_entry`: the bare `link` field,
else the first link object with `rel == "alternate"` or an HTML type, else
the first link object's `href`. -/
def rssLink (e : FeedEntry) : String :=
  let link0 := e.link.getD ""
  if link0 = "" ∧ e.links ≠ [] then
    let l1 := match e.links.find? (fun lo =>
        lo.rel = some "alternate" || pyStartsWith (lo.type.getD "") "text/html") with
      | some lo => lo.href.getD ""
      | none => ""
    if l1 = "" then
      match e.links with
      | lo :: _ => lo.href.getD ""
      | [] => ""
    else l1
  else link0

/-- Model of `RssAdapter._parse_entry`. -/
def rssParseEntry (e : FeedEntry) : Option Item :=
  let itemId := pyOr e.id (pyOr e.guid (e.link.getD ""))
  let title := pyStrip (e.title.getD "")
  if title = "" then none
  else
    let link := rssLink e
    let date := pyOr e.published (pyOr e.updated (pyOr e.created ""))
    let summary :=
      if pyTruthy e.summary then pyTake (cleanHtml (e.summary.getD "")) 500
      else if pyTruthy e.description then pyTake (cleanHtml (e.description.getD "")) 500
      else ""
    some ⟨itemId, title, link, date, some summary, none⟩

/-- Model of `RssAdapter.extract` after `feedparser.parse`. -/
def rssExtract (feed : ParsedFeed) (maxItems : Nat) : List Item :=
  if feed.bozo ∧ feed.entries = [] then []
  else (feed.entries.take maxItems).filterMap rssParseEntry

/-- Link resolution of `AtomAdapter._parse_entry`: first link object whose
`rel` (defaulting to `"alternate"`) is `"alternate"`, else the first link
object, else the bare `link` field; finally the entry id when it looks like
a URL. -/
def atomLink (e : FeedEntry) (itemId : String) : String :=
  let link :=
    if e.links ≠ [] then
      let l1 := match e.links.find? (fun lo => lo.rel.getD "alternate" = "alternate") with
        | some lo => lo.href.getD ""
        | none => ""
      if l1 = "" then
        match e.links with
        | lo :: _ => lo.href.getD ""
        | [] => ""
      else l1
    else if pyTruthy e.link then e.link.getD ""
    else ""
  if link = "" ∧ pyStartsWith itemId "http" then itemId else link

/-- Model of `AtomAdapter._parse_entry`. -/
def atomParseEntry (e : FeedEntry) : Option Item :=
  let itemId := e.id.getD ""
  let title := pyStrip (e.title.getD "")
  if title = "" then none
  else
    let link := atomLink e itemId
    let date := pyOr e.updated (pyOr e.published "")
    let summary :=
      if pyTruthy e.summary then pyTake (cleanHtml (e.summary.getD "")) 500
      else if e.content ≠ [] then contentSummary e.content
      else ""
    some ⟨itemId, title, link, date, some summary, none⟩

/-- Model of `AtomAdapter.extract` after `feedparser.parse`. -/
def atomExtract (feed : ParsedFeed) (maxItems : Nat) : List Item :=
  if feed.bozo ∧ feed.entries = [] then []
  else (feed.entries.take maxItems).filterMap atomParseEntry

/-- Decimal digit test. -/
def isDigit (c : Char) : Bool := 48 ≤ c.toNat ∧ c.toNat ≤ 57

/-- Character class `[a-zA-Z0-9.]`. -/
def isAlnumDot (c : Char) : Bool :=
  isDigit c || (97 ≤ c.toNat ∧ c.toNat ≤ 122) || (65 ≤ c.toNat ∧ c.toNat ≤ 90) || c = '.'

/-- Matcher for `\d+\.\d+(?:\.\d+)?(?:-[a-zA-Z0-9.]+)?` at the head of the
input, returning the matched characters and the rest. -/
def matchVersionNum (cs : List Char) : Option (List Char × List Char) :=
  let d1 := cs.takeWhile isDigit
  if d1 = [] then none
  else
    match cs.drop d1.length with
    | '.' :: cs2 =>
      let d2 := cs2.takeWhile isDigit
      if d2 = [] then none
      else
        let rest2 := cs2.drop d2.length
        let p3 : List Char × List Char := match rest2 with
          | '.' :: cs3 =>
            let d3 := cs3.takeWhile isDigit
            if d3 = [] then ([], rest2) else ('.' :: d3, cs3.drop d3.length)
          | _ => ([], rest2)
        let p4 : List Char × List Char := match p3.2 with
          | '-' :: cs4 =>
            let a4 := cs4.takeWhile isAlnumDot
            if a4 = [] then ([], p3.2) else ('-' :: a4, cs4.drop a4.length)
          | _ => ([], p3.2)
        some (d1 ++ '.' :: d2 ++ p3.1 ++ p4.1, p4.2)
    | _ => none

/-- Matcher for `v?\d+\.\d+(?:\.\d+)?(?:-[a-zA-Z0-9.]+)?` at the head of the
input. -/
def matchVersionAt (cs : List Char) : Option (List Char) :=
  match cs with
  | 'v' :: rest =>
    match matchVersionNum rest with
    | some (m, _) => some ('v' :: m)
    | none => (matchVersionNum cs).map (·.1)
  | _ => (matchVersionNum cs).map (·.1)

/-- Leftmost search of an at-position matcher, as `re.search` scans. -/
def searchList (m : List Char → Option (List Char)) : List Char → Option (List Char)
  | [] => m []
  | c :: cs =>
    match m (c :: cs) with
    | some r => some r
    | none => searchList m cs

/-- Matcher for `/([^/]+)$`: the non-empty segment after the last slash. -/
def lastSlashSegment (s : String) : Option String :=
  if s.data.contains '/' then
    let tail := (s.data.reverse.takeWhile (fun c => ¬(c = '/'))).reverse
    if tail = [] then none else some (String.mk tail)
  else none

/-- Model of `GitHubReleasesAtomAdapter._extract_tag_version`. -/
def extractTagVersion (itemId title : String) : String :=
  let fromId := if itemId = "" then none else lastSlashSegment itemId
  match fromId with
  | some seg => seg
  | none =>
    if title = "" then ""
    else
      match searchList matchVersionAt title.data with
      | some m => String.mk m
      | none => pyStrip title

/-- Link resolution of `GitHubReleasesAtomAdapter._parse_entry`: first link
object with `rel == "alternate"`, else the first link object, else the bare
`link` field. -/
def githubLink (e : FeedEntry) : String :=
  if e.links ≠ [] then
    let l1 := match e.links.find? (fun lo => lo.rel = some "alternate") with
      | some lo => lo.href.getD ""
      | none => ""
    if l1 = "" then
      match e.links with
      | lo :: _ => lo.href.getD ""
      | [] => ""
    else l1
  else if pyTruthy e.link then e.link.getD ""
  else ""

/-- Model of `GitHubReleasesAtomAdapter._parse_entry`.  An entry without a
title is not discarded: the title falls back to the extracted tag version,
or to the literal `"Unknown Release"`. -/
def githubParseEntry (e : FeedEntry) : Option Item :=
  let itemId := e.id.getD ""
  let tagVersion := extractTagVersion itemId (e.title.getD "")
  let title0 := pyStrip (e.title.getD "")
  let title := if title0 = "" then (if tagVersion = "" then "Unknown Release" else tagVersion)
               else title0
  let link := githubLink e
  let date := pyOr e.updated (pyOr e.published "")
  let summary :=
    if e.content ≠ [] then contentSummary e.content
    else if pyTruthy e.summary then pyTake (cleanHtml (e.summary.getD "")) 500
    else ""
  some ⟨itemId, title, link, date, some summary, some tagVersion⟩

/-- Model of `GitHubReleasesAtomAdapter.extract` after `feedparser.parse`. -/
def githubExtract (feed : ParsedFeed) (maxItems : Nat) : List Item :=
  if feed.bozo ∧ feed.entries = [] then []
  else (feed.entries.take maxItems).filterMap githubParseEntry

/-! ## HTML adapters

Embedding of `src/lambda/adapters/html_articles.py` and
`html_changelog.py`.  `BeautifulSoup` is the model boundary: container and
entry selection happen entirely through soup queries, so an extraction run
is described by the per-entry query results (an `ElemView` is what one
`select_one` call found — its stripped text, tag name and the attributes the
adapters read).  The item-assembly logic downstream of those queries is
translated directly from the source. -/

/-- View of one element as the adapters consume it: `get_text(strip=True)`,
the tag name, and the `href` / `datetime` / `id` attributes. -/
structure ElemView where
  text : String
  name : String
  href : Option String
  datetime : Option String
deriving DecidableEq

/-- View of a content element for `_summarize_content`: the stripped texts of
its `li` descendants and its own stripped text. -/
structure SummView where
  liTexts : List String
  text : String
deriving DecidableEq

/-- Newline join, as `"\n".join(...)`. -/
def joinNl : List String → String
  | [] => ""
  | [s] => s
  | s :: rest => s ++ "\n" ++ joinNl rest

/-- Model of `HtmlChangelogAdapter._summarize_content`: the first five
non-empty `li` texts as bulleted lines each truncated to 100 characters, or
the element's plain text truncated to 300. -/
def summarizeContent (sv : SummView) : String :=
  if sv.liTexts ≠ [] then
    joinNl ((sv.liTexts.take 5).filterMap (fun t =>
      if t = "" then none else some ("• " ++ pyTake t 100)))
  else pyTake sv.text 300

/-- Minimal model of `urllib.parse.urljoin` (external stdlib collaborator):
root-relative links are joined to the origin, others to the base directory.
No theorem below depends on its details — every concrete link in the proofs
is absolute or empty, which bypasses it. -/
def urljoinModel (base rel : String) : String :=
  if rel = "" then base
  else if pyStartsWith rel "/" then
    let cut := base.data.take ((base.data.takeWhile (fun c => ¬(c = '/'))).length + 2)
    String.mk cut ++ String.mk ((base.data.drop cut.length).takeWhile (fun c => ¬(c = '/'))) ++ rel
  else String.mk ((base.data.reverse.dropWhile (fun c => ¬(c = '/'))).reverse) ++ rel

/-- Model of `HtmlArticlesAdapter._clean_date`: drop a leading
`Published|Posted|Updated|Date` label with trailing `:`/`|`/whitespace,
collapse whitespace, strip. -/
def cleanDateArticles (date : String) : String :=
  if date = "" then ""
  else
    let cs := date.data
    let lower := cs.map lowerChar
    let afterLabel :=
      if listIsPrefixOf "published".data lower then some (cs.drop 9)
      else if listIsPrefixOf "posted".data lower then some (cs.drop 6)
      else if listIsPrefixOf "updated".data lower then some (cs.drop 7)
      else if listIsPrefixOf "date".data lower then some (cs.drop 4)
      else none
    let stripped := match afterLabel with
      | some r => r.dropWhile (fun c => c = ':' || c = '|' || isPySpace c)
      | none => cs
    pyNormWs (String.mk stripped)

/-- Per-item query results for `HtmlArticlesAdapter._parse_item`: the title
selector match, the three title fallback queries (`h1, h2, h3, h4`,
`[class*='title']`, `a`), the link selector match, the parent anchor of the
chosen title element, the first `a[href]` descendant, the date selector
match and the three date fallback queries. -/
structure ArticleItemView where
  q_titleSel : Option ElemView
  q_h14 : Option ElemView
  q_classTitle : Option ElemView
  q_anchor : Option ElemView
  q_linkSel : Option ElemView
  parentAnchor : Option ElemView
  q_firstAnchor : Option ElemView
  q_dateSel : Option ElemView
  q_time : Option ElemView
  q_classDate : Option ElemView
  q_classTime : Option ElemView
deriving DecidableEq

/-- Model of `HtmlArticlesAdapter._parse_item`.  Note the returned dict has
no `summary` key. -/
def articlesParseItem (v : ArticleItemView) (baseUrl : String) : Option Item :=
  match v.q_titleSel <|> v.q_h14 <|> v.q_classTitle <|> v.q_anchor with
  | none => none
  | some te =>
    if te.text = "" then none
    else
      let link0 := match v.q_linkSel with
        | some le => le.href.getD ""
        | none => ""
      let linkA :=
        if link0 = "" then
          let lt :=
            if te.name = "a" then te.href.getD ""
            else match v.parentAnchor with
              | some pa => pa.href.getD ""
              | none => ""
          if lt = "" then
            match v.q_firstAnchor with
            | some fa => fa.href.getD ""
            | none => ""
          else lt
        else link0
      let link :=
        if ¬(linkA = "") ∧ ¬(pyStartsWith linkA "http://" || pyStartsWith linkA "https://") then
          urljoinModel baseUrl linkA
        else linkA
      let date0 := match v.q_dateSel with
        | some de => if de.text = "" then de.datetime.getD "" else de.text
        | none => ""
      let date1 :=
        if date0 = "" then
          match v.q_time <|> v.q_classDate <|> v.q_classTime with
          | some de => pyOr de.datetime de.text
          | none => ""
        else date0
      let itemId := if link = "" then "title:" ++ pyTake (pyNormWs (pyLower te.text)) 100 else link
      some ⟨itemId, te.text, link, cleanDateArticles date1, none, none⟩

/-- Model of `HtmlArticlesAdapter.extract` downstream of item selection: the
views describe the selected item elements in document order. -/
def htmlArticlesExtract (views : List ArticleItemView) (baseUrl : String) (maxItems : Nat) :
    List Item :=
  if views = [] then []
  else
    (views.take maxItems).filterMap (fun v =>
      match articlesParseItem v baseUrl with
      | some it => if it.title = "" then none else some it
      | none => none)

/-- Exactly `n` decimal digits at the head of the input. -/
def exactDigits (n : Nat) (cs : List Char) : Option (List Char × List Char) :=
  let d := cs.take n
  if d.length = n ∧ d.all isDigit then some (d, cs.drop n) else none

/-- Matcher for an ISO-style date — four digits, a dash-or-slash separator,
two digits, a separator, two digits — at the head of the input. -/
def isoDateAt (cs : List Char) : Option (List Char × List Char) :=
  match exactDigits 4 cs with
  | some (d1, r1) =>
    match r1 with
    | s1 :: r2 =>
      if s1 = '-' || s1 = '/' then
        match exactDigits 2 r2 with
        | some (d2, r3) =>
          match r3 with
          | s2 :: r4 =>
            if s2 = '-' || s2 = '/' then
              match exactDigits 2 r4 with
              | some (d3, r5) => some (d1 ++ s1 :: d2 ++ s2 :: d3, r5)
              | none => none
            else none
          | [] => none
        | none => none
      else none
    | [] => none
  | none => none

/-- ASCII letter test. -/
def isLetter (c : Char) : Bool :=
  (97 ≤ c.toNat ∧ c.toNat ≤ 122) || (65 ≤ c.toNat ∧ c.toNat ≤ 90)

/-- Month-name date matcher
`(Jan|Feb|...|Dec)[a-z]*\.?\s+\d{1,2},?\s+\d{4}` (case-insensitive) at the
head of the input. -/
def monthDateAt (cs : List Char) : Option (List Char) :=
  let m0 := cs.take 3
  if m0.length = 3 ∧ (m0.map lowerChar) ∈
      ["jan".data, "feb".data, "mar".data, "apr".data, "may".data, "jun".data,
       "jul".data, "aug".data, "sep".data, "oct".data, "nov".data, "dec".data] then
    let rest0 := cs.drop 3
    let letters := rest0.takeWhile isLetter
    let rest1 := rest0.drop letters.length
    let dotPart : List Char × List Char := match rest1 with
      | '.' :: r => (['.'], r)
      | _ => ([], rest1)
    let ws1 := dotPart.2.takeWhile isPySpace
    if ws1 = [] then none
    else
      let rest3 := dotPart.2.drop ws1.length
      let dds := (rest3.takeWhile isDigit).take 2
      if dds = [] then none
      else
        let rest4 := rest3.drop dds.length
        let commaPart : List Char × List Char := match rest4 with
          | ',' :: r => ([','], r)
          | _ => ([], rest4)
        let ws2 := commaPart.2.takeWhile isPySpace
        if ws2 = [] then none
        else
          match exactDigits 4 (commaPart.2.drop ws2.length) with
          | some (y, _) =>
              some (m0 ++ letters ++ dotPart.1 ++ ws1 ++ dds ++ commaPart.1 ++ ws2 ++ y)
          | none => none
  else none

/-- Model of `HtmlChangelogAdapter._extract_date_from_text`: the four date
patterns tried in order — parenthesised ISO date, dash-prefixed ISO date,
bare ISO date, month-name date. -/
def extractDateFromText (text : String) : String :=
  let p1 := fun (cs : List Char) =>
    match cs with
    | '(' :: r =>
      match isoDateAt r with
      | some (d, r2) =>
        match r2 with
        | ')' :: _ => some d
        | _ => none
      | none => none
    | _ => none
  let p2 := fun (cs : List Char) =>
    match cs with
    | c :: r =>
      if c = '-' || c = '–' then
        (isoDateAt (r.drop (r.takeWhile isPySpace).length)).map (·.1)
      else none
    | [] => none
  let p3 := fun (cs : List Char) => (isoDateAt cs).map (·.1)
  match searchList p1 text.data with
  | some g => String.mk g
  | none =>
    match searchList p2 text.data with
    | some g => String.mk g
    | none =>
      match searchList p3 text.data with
      | some g => String.mk g
      | none =>
        match searchList monthDateAt text.data with
        | some g => String.mk g
        | none => ""

/-- Per-entry query results for `HtmlChangelogAdapter._parse_entry`: the
version selector match, the title fallback queries (`h1, h2, h3, h4`,
`[class*='version']`, `[class*='release']`), the element's own tag name and
text, the date selector match and the two date fallback queries, the
content selector match, the first `ul`/`ol`, the element text after heading
removal, the element's `id` attribute (`""` when absent, as
`element.get("id", "")`), and the `id` of the first `[id]` descendant. -/
structure ChangelogEntryView where
  q_versionSel : Option ElemView
  q_h14 : Option ElemView
  q_classVersion : Option ElemView
  q_classRelease : Option ElemView
  selfName : String
  selfText : String
  q_dateSel : Option ElemView
  q_time : Option ElemView
  q_classDate : Option ElemView
  q_contentSel : Option SummView
  q_list : Option SummView
  textNoHeadings : String
  idAttr : String
  q_firstWithId : Option String
deriving DecidableEq

/-- Title cascade of `HtmlChangelogAdapter._parse_entry`: version selector,
common version-heading queries, then the element itself when it is a
heading. -/
def changelogTitle (v : ChangelogEntryView) : String :=
  let title0 := match v.q_versionSel with
    | some e => e.text
    | none => ""
  let title1 :=
    if title0 = "" then
      match v.q_h14 <|> v.q_classVersion <|> v.q_classRelease with
      | some e => e.text
      | none => ""
    else title0
  if title1 = "" then
    if v.selfName = "h1" ∨ v.selfName = "h2" ∨ v.selfName = "h3" ∨ v.selfName = "h4" then
      v.selfText
    else ""
  else title1

/-- Date cascade of `HtmlChangelogAdapter._parse_entry`: date selector, then
`time` / `[class*='date']`, then a date embedded in the title text. -/
def changelogDate (v : ChangelogEntryView) (title : String) : String :=
  let date0 := match v.q_dateSel with
    | some de => pyOr de.datetime de.text
    | none => ""
  if date0 = "" then
    match v.q_time <|> v.q_classDate with
    | some de => pyOr de.datetime de.text
    | none => extractDateFromText title
  else date0

/-- Summary cascade of `HtmlChangelogAdapter._parse_entry`: content
selector, then the first list, then the element text without headings. -/
def changelogSummary (v : ChangelogEntryView) : String :=
  let summary0 := match v.q_contentSel with
    | some sv => summarizeContent sv
    | none => ""
  if summary0 = "" then
    match v.q_list with
    | some sv => summarizeContent sv
    | none => pyTake v.textNoHeadings 300
  else summary0

/-- Anchor link of `HtmlChangelogAdapter._parse_entry`: the entry's own id,
else the first descendant carrying an id. -/
def changelogLink (v : ChangelogEntryView) (baseUrl : String) : String :=
  if ¬(v.idAttr = "") then baseUrl ++ "#" ++ v.idAttr
  else
    match v.q_firstWithId with
    | some i => baseUrl ++ "#" ++ i
    | none => ""

/-- Model of `HtmlChangelogAdapter._parse_entry`. -/
def changelogParseEntry (v : ChangelogEntryView) (baseUrl : String) : Option Item :=
  let title := changelogTitle v
  if title = "" then none
  else
    let itemId :=
      if v.idAttr = "" then "version:" ++ pyTake (pyNormWs (pyLower title)) 100 else v.idAttr
    let date := changelogDate v title
    some ⟨itemId, pyNormWs title, changelogLink v baseUrl,
          (if date = "" then "" else pyNormWs date), some (changelogSummary v), none⟩

/-- Model of `HtmlChangelogAdapter.extract` downstream of entry selection. -/
def htmlChangelogExtract (views : List ChangelogEntryView) (baseUrl : String) (maxItems : Nat) :
    List Item :=
  if views = [] then []
  else
    (views.take maxItems).filterMap (fun v =>
      match changelogParseEntry v baseUrl with
      | some it => if it.title = "" then none else some it
      | none => none)

/-! ## Helper lemmas -/

/-- Overwriting an existing key in place keeps the value found by lookup. -/
theorem lookupKey_map_set_self (t : List (String × String)) (k v : String)
    (h : (lookupKey t k).isSome = true) :
    lookupKey (t.map (fun p => if p.1 = k then (k, v) else p)) k = some v := by
  induction t with
  | nil => simp [lookupKey] at h
  | cons p t ih =>
    rcases p with ⟨pk, pv⟩
    by_cases hk : pk = k
    · subst hk
      simp [lookupKey]
    · have h2 : (lookupKey t k).isSome = true := by
        simpa [lookupKey, hk] using h
      simpa [lookupKey, hk] using ih h2

/-- Overwriting an existing key in place does not disturb other keys. -/
theorem lookupKey_map_set_other (t : List (String × String)) (k k' v : String)
    (h : k ≠ k') :
    lookupKey (t.map (fun p => if p.1 = k' then (k', v) else p)) k = lookupKey t k := by
  induction t with
  | nil => rfl
  | cons p t ih =>
    rcases p with ⟨pk, pv⟩
    by_cases hk : pk = k'
    · subst hk
      simp [lookupKey, Ne.symm h, ih]
    · by_cases hkk : pk = k
      · subst hkk
        simp [lookupKey, hk]
      · simp [lookupKey, hk, hkk, ih]

/-- Appending a fresh key finds its value. -/
theorem lookupKey_append_self (t : List (String × String)) (k v : String)
    (h : (lookupKey t k).isSome = false) :
    lookupKey (t ++ [(k, v)]) k = some v := by
  induction t with
  | nil => simp [lookupKey]
  | cons p t ih =>
    rcases p with ⟨pk, pv⟩
    by_cases hk : pk = k
    · subst hk
      simp [lookupKey] at h
    · have h2 : (lookupKey t k).isSome = false := by
        simpa [lookupKey, hk] using h
      simpa [lookupKey, hk] using ih h2

/-- Appending a different key does not disturb lookups. -/
theorem lookupKey_append_other (t : List (String × String)) (k k' v : String)
    (h : k ≠ k') :
    lookupKey (t ++ [(k', v)]) k = lookupKey t k := by
  induction t with
  | nil => simp [lookupKey, Ne.symm h]
  | cons p t ih =>
    rcases p with ⟨pk, pv⟩
    by_cases hk : pk = k
    · simp [lookupKey, hk]
    · simp [lookupKey, hk, ih]

/-- Looking up the key just set finds the new value. -/
theorem lookup_setKey_self (l : List (String × String)) (k v : String) :
    lookupKey (setKey l k v) k = some v := by
  unfold setKey
  split
  case isTrue h => exact lookupKey_map_set_self l k v h
  case isFalse h => exact lookupKey_append_self l k v (by simpa using h)

/-- Setting one key leaves lookups of a different key unchanged. -/
theorem lookup_setKey_other (l : List (String × String)) (k k' v : String) (h : k ≠ k') :
    lookupKey (setKey l k' v) k = lookupKey l k := by
  unfold setKey
  split
  · exact lookupKey_map_set_other l k k' v h
  · exact lookupKey_append_other l k k' v h

/-! ## Claim theorems -/

/-- C4: `Fetcher.fetch` is total over every transport outcome — an HTTP
status of 400 or above, a timeout, a connection error and any unexpected
exception each yield a result dict carrying an error, and no result dict
ever carries both content and an error. -/
theorem fetch_folds_failures (etag lastModified : Option String)
    (headers : List (String × String)) (outcome : FetchOutcome) :
    (¬(((fetch etag lastModified headers outcome).2.content.isSome) ∧
       ((fetch etag lastModified headers outcome).2.error.isSome))) ∧
    (∀ status reason body e l c, outcome = .resp status reason body e l c →
        400 ≤ status → (fetch etag lastModified headers outcome).2.error.isSome) ∧
    (outcome = .timeout → (fetch etag lastModified headers outcome).2.error.isSome) ∧
    (∀ m, outcome = .clientError m → (fetch etag lastModified headers outcome).2.error.isSome) ∧
    (∀ m, outcome = .unexpected m → (fetch etag lastModified headers outcome).2.error.isSome) := by
  refine ⟨?_, ?_, ?_, ?_, ?_⟩
  · cases outcome with
    | resp status reason body e l c =>
      simp only [fetch, fetchResult, emptyFetchRes]
      split
      · simp
      · split <;> simp
    | timeout => simp [fetch, fetchResult, emptyFetchRes]
    | clientError m => simp [fetch, fetchResult, emptyFetchRes]
    | unexpected m => simp [fetch, fetchResult, emptyFetchRes]
  · intro status reason body e l c hout h400
    subst hout
    simp only [fetch, fetchResult, emptyFetchRes]
    have h304 : ¬(status = 304) := by omega
    rw [if_neg h304, if_pos h400]
    simp
  · intro hout; subst hout; simp [fetch, fetchResult, emptyFetchRes]
  · intro m hout; subst hout; simp [fetch, fetchResult, emptyFetchRes]
  · intro m hout; subst hout; simp [fetch, fetchResult, emptyFetchRes]

/-- Witness for C4: a 503 response comes back as an error result. -/
theorem fetch_folds_failures_witness :
    (fetch none none [] (.resp 503 "Service Unavailable" "" none none none)).2.error.isSome := by
  have h := fetch_folds_failures none none [] (.resp 503 "Service Unavailable" "" none none none)
  exact h.2.1 503 "Service Unavailable" "" none none none rfl (by omega)

/-- Counterexample for C9: a supplied empty-string etag (and last-modified)
is dropped by the `if etag:` truthiness guard, so no conditional header is
sent at all. -/
theorem fetch_empty_validators_not_sent :
    (lookupKey (fetch (some "") (some "") [] .timeout).1 "If-None-Match" = none) ∧
    (lookupKey (fetch (some "") (some "") [] .timeout).1 "If-Modified-Since" = none) := by
  decide

/-- C9 (amended): a supplied non-empty etag is sent verbatim as
`If-None-Match`, a supplied non-empty last-modified as `If-Modified-Since`,
and a 304 response yields a `not_modified` result dict carrying no body
content. -/
theorem fetch_conditional_get (etag lastModified : Option String)
    (headers : List (String × String)) (outcome : FetchOutcome) :
    (∀ e, etag = some e → e ≠ "" →
        lookupKey (fetch etag lastModified headers outcome).1 "If-None-Match" = some e) ∧
    (∀ lm, lastModified = some lm → lm ≠ "" →
        lookupKey (fetch etag lastModified headers outcome).1 "If-Modified-Since" = some lm) ∧
    (∀ reason body e l c, outcome = .resp 304 reason body e l c →
        (fetch etag lastModified headers outcome).2.not_modified = true ∧
        (fetch etag lastModified headers outcome).2.content = none) := by
  refine ⟨?_, ?_, ?_⟩
  · intro e he hne
    subst he
    cases lastModified with
    | none =>
      simp only [fetch, fetchReqHeaders, if_neg hne]
      exact lookup_setKey_self _ _ _
    | some lm =>
      by_cases hlm : lm = ""
      · simp only [fetch, fetchReqHeaders, if_neg hne, if_pos hlm]
        exact lookup_setKey_self _ _ _
      · simp only [fetch, fetchReqHeaders, if_neg hne, if_neg hlm]
        rw [lookup_setKey_other _ _ _ _ (by decide)]
        exact lookup_setKey_self _ _ _
  · intro lm hlm hne
    subst hlm
    cases etag with
    | none =>
      simp only [fetch, fetchReqHeaders, if_neg hne]
      exact lookup_setKey_self _ _ _
    | some e =>
      by_cases he : e = ""
      · simp only [fetch, fetchReqHeaders, if_neg hne, if_pos he]
        exact lookup_setKey_self _ _ _
      · simp only [fetch, fetchReqHeaders, if_neg hne, if_neg he]
        exact lookup_setKey_self _ _ _
  · intro reason body e l c hout
    subst hout
    simp [fetch, fetchResult, emptyFetchRes]

/-- Witness for C9 (amended): etag `"abc"` is sent as `If-None-Match` and a
304 yields `not_modified` with no content. -/
theorem fetch_conditional_get_witness :
    (lookupKey (fetch (some "abc") (some "Mon, 01 Jan 2024 00:00:00 GMT") []
        (.resp 304 "Not Modified" "" none none none)).1 "If-None-Match" = some "abc") ∧
    ((fetch (some "abc") (some "Mon, 01 Jan 2024 00:00:00 GMT") []
        (.resp 304 "Not Modified" "" none none none)).2.not_modified = true) ∧
    ((fetch (some "abc") (some "Mon, 01 Jan 2024 00:00:00 GMT") []
        (.resp 304 "Not Modified" "" none none none)).2.content = none) := by
  have h := fetch_conditional_get (some "abc") (some "Mon, 01 Jan 2024 00:00:00 GMT") []
    (.resp 304 "Not Modified" "" none none none)
  exact ⟨h.1 "abc" rfl (by decide),
         (h.2.2 "Not Modified" "" none none none rfl).1,
         (h.2.2 "Not Modified" "" none none none rfl).2⟩

/-- C10: every adapter type outside the five registered ones makes
`get_adapter` raise `ValueError` at dispatch time, and `process_source`
catches it at the processor boundary: the source is skipped with no change
record and no state write, and the task does not raise. -/
theorem unknown_adapter_skipped (t sid url : String) (org nm : Option String)
    (env : ProcEnv) (h : t ∉ registeredAdapters) :
    (∃ m, getAdapter t = .error m) ∧
    processSource ⟨some sid, some t, some url, org, nm⟩ env = .ok (none, []) := by
  have hga : getAdapter t = .error ("Unknown adapter type: " ++ t ++
      ". Available: ['rss', 'atom', 'github_releases_atom', 'html_articles', 'html_changelog']") := by
    simp [getAdapter, h]
  refine ⟨⟨_, hga⟩, ?_⟩
  simp only [processSource, processBody, hga]
  split
  · rfl
  · split
    · rfl
    · rfl

/-- Witness for C10: a source with adapter type `"json_feed"` is skipped. -/
theorem unknown_adapter_skipped_witness :
    (∃ m, getAdapter "json_feed" = .error m) ∧
    processSource ⟨some "s1", some "json_feed", some "http://example.com", none, none⟩
      ⟨none, emptyFetchRes, [], "2026-01-01T00:00:00+00:00"⟩ = .ok (none, []) :=
  unknown_adapter_skipped "json_feed" "s1" "http://example.com" none none
    ⟨none, emptyFetchRes, [], "2026-01-01T00:00:00+00:00"⟩ (by decide)

/-- Source configuration used by the processor counterexamples. -/
def rssSource : SourceCfg := ⟨some "s1", some "rss", some "http://example.com/feed", none, none⟩

/-- Environment of a first-ever run (no prior state) whose fetch succeeded
but whose content yielded no extractable items. -/
def firstRunEmptyEnv : ProcEnv :=
  ⟨none, ⟨some "<html></html>", none, none, some "text/html", false, none⟩, [],
   "2026-01-01T00:00:00+00:00"⟩

/-- Counterexample for C2: on the first-ever processing of a source (null
prior state) whose successfully fetched content extracts to zero items,
`process_source` returns no change record at all — the claimed
"always yields a change record with isNew=true, regardless of content"
fails. -/
theorem first_seen_empty_extraction_no_record :
    firstRunEmptyEnv.prev_state = none ∧
    processSource rssSource firstRunEmptyEnv = .ok (none, []) := by
  decide

/-- C2 (amended): on the first-ever processing of a source (null prior
state), whenever the adapter type is registered, the fetch returned content
(not an error, not a 304) and at least one item was extracted, `process_source`
yields a change record flagged `is_new = true`, together with one state write. -/
theorem first_seen_yields_new_change (sid t url now : String) (org nm : Option String)
    (fr : FetchRes) (items : List Item)
    (hreg : t ∈ registeredAdapters) (hnm : fr.not_modified = false)
    (herr : pyTruthy fr.error = false) (hitems : items ≠ []) :
    ∃ c w, processSource ⟨some sid, some t, some url, org, nm⟩ ⟨none, fr, items, now⟩ =
        .ok (some c, [w]) ∧ c.is_new = true ∧ c.source_id = sid ∧
        c.items = items.take 5 := by
  match items, hitems with
  | first :: rest, _ =>
    have hga : getAdapter t = .ok t := by simp [getAdapter, hreg]
    refine ⟨⟨sid, org.getD "Unknown", nm.getD sid, url, (first :: rest).take 5, true⟩,
            updateState sid (computeFingerprint (first :: rest) 10) fr.etag fr.last_modified
              (some (if first.id = "" then first.link else first.id)) now, ?_, rfl, rfl, rfl⟩
    simp only [processSource, processBody, hnm, herr, Bool.false_eq_true, if_false, hga]
    simp

/-- Witness for C2 (amended): a concrete first run with one extracted item
produces a change record with `is_new = true`. -/
theorem first_seen_yields_new_change_witness :
    ∃ c w, processSource ⟨some "s1", some "rss", some "http://example.com/feed", none, none⟩
        ⟨none, ⟨some "<rss/>", some "E1", none, some "", false, none⟩,
         [mkItem "1" "Foo" "http://x"], "2026-01-01T00:00:00+00:00"⟩ =
        .ok (some c, [w]) ∧ c.is_new = true ∧ c.source_id = "s1" ∧
        c.items = [mkItem "1" "Foo" "http://x"].take 5 :=
  first_seen_yields_new_change "s1" "rss" "http://example.com/feed"
    "2026-01-01T00:00:00+00:00" none none
    ⟨some "<rss/>", some "E1", none, some "", false, none⟩
    [mkItem "1" "Foo" "http://x"] (by decide) rfl rfl (by decide)

/-- Run input whose single source fails with a fetch timeout. -/
def timeoutRun : List (SourceCfg × ProcEnv) :=
  [(rssSource, ⟨none, ⟨none, none, none, none, false, some "Request timed out"⟩, [],
    "2026-01-01T00:00:00+00:00"⟩)]

/-- Counterexample for C6: a run in which the only source's processing fails
(fetch timeout) still completes, but its summary reports `errors = 0` —
`process_source` swallowed the failure and returned `None` — so the claimed
"errors count is greater than 0" fails. -/
theorem run_with_failing_source_reports_zero_errors :
    runMonitor timeoutRun = ⟨"success", 1, 0, 0⟩ := by
  decide

/-- C6 (amended): every run completes with a structured `"success"` summary
whose `sources_checked` is the source count; failures inside the processing
body (fetch errors, parse failures, exceptions caught by the processor) are
converted to "no change" and leave the error count untouched — `errors`
counts exactly the tasks that raised before the `try` block, i.e. sources
whose dict is missing `id`, `adapter` or `url`. -/
theorem run_summary_counts (runs : List (SourceCfg × ProcEnv)) :
    (runMonitor runs).status = "success" ∧
    (runMonitor runs).sources_checked = runs.length ∧
    (runMonitor runs).errors =
      runs.countP (fun p => !(p.1.id.isSome && p.1.adapter.isSome && p.1.url.isSome)) := by
  refine ⟨rfl, rfl, ?_⟩
  show (runs.map (fun p => processSource p.1 p.2)).countP _ = _
  rw [List.countP_map]
  apply List.countP_congr
  intro x _
  rcases x with ⟨s, e⟩
  rcases s with ⟨id, ad, u, o, n⟩
  cases id <;> cases ad <;> cases u <;> simp [processSource, Function.comp]

/-- Items of the unchanged-run counterexample (the spec's own example item). -/
def unchangedItems : List Item := [mkItem "1" "Foo" "http://x"]

/-- Prior stored state whose fingerprint already matches `unchangedItems`
and which carries a `last_item_key`. -/
def unchangedPrev : StoredState :=
  ⟨some "s1", some (computeFingerprint unchangedItems 10), some "E1", none,
   some "2025-12-31T00:00:00+00:00", some "K"⟩

/-- Environment of an unchanged-content run: successful conditional fetch
with a new etag, same extracted items. -/
def unchangedEnv : ProcEnv :=
  ⟨some unchangedPrev, ⟨some "<rss/>", some "E2", none, some "", false, none⟩,
   unchangedItems, "2026-01-01T00:00:00+00:00"⟩

/-- Counterexample for C3: on an unchanged run the processor produces no
change record and refreshes validators, but the `put_item` write replaces
the whole stored record — the new record carries no `last_item_key`, so the
prior `lastItemKey` value `"K"` is not preserved. -/
theorem unchanged_run_drops_last_item_key :
    processSource rssSource unchangedEnv =
      .ok (none, [⟨"s1", computeFingerprint unchangedItems 10,
                   "2026-01-01T00:00:00+00:00", some "E2", none, none⟩]) ∧
    unchangedPrev.last_item_key = some "K" ∧
    (readBack ⟨"s1", computeFingerprint unchangedItems 10,
               "2026-01-01T00:00:00+00:00", some "E2", none, none⟩).last_item_key = none := by
  refine ⟨by decide, rfl, rfl⟩

/-- C3 (amended): when the new fingerprint equals the stored one the
processor produces no change record and performs exactly one state write
carrying the fingerprint, the fresh `last_seen_utc` and the new validators —
but that write replaces the stored record and carries no `last_item_key`,
so the prior `lastItemKey` is dropped rather than preserved. -/
theorem unchanged_run_updates_validators (sid t url now : String) (org nm : Option String)
    (prev : StoredState) (fr : FetchRes) (items : List Item)
    (hreg : t ∈ registeredAdapters) (hnm : fr.not_modified = false)
    (herr : pyTruthy fr.error = false) (hitems : items ≠ [])
    (hfp : prev.fingerprint = some (computeFingerprint items 10)) :
    processSource ⟨some sid, some t, some url, org, nm⟩ ⟨some prev, fr, items, now⟩ =
      .ok (none, [updateState sid (computeFingerprint items 10) fr.etag fr.last_modified none now]) ∧
    (updateState sid (computeFingerprint items 10) fr.etag fr.last_modified none now).last_item_key
      = none ∧
    (updateState sid (computeFingerprint items 10) fr.etag fr.last_modified none now).last_seen_utc
      = now := by
  refine ⟨?_, rfl, rfl⟩
  match items, hitems with
  | first :: rest, _ =>
    have hga : getAdapter t = .ok t := by simp [getAdapter, hreg]
    simp only [processSource, processBody, hnm, herr, Bool.false_eq_true, if_false, hga, hfp]
    simp

/-- Witness for C3 (amended): the concrete unchanged run writes validators
and `last_seen_utc` with no `last_item_key`. -/
theorem unchanged_run_updates_validators_witness :
    processSource ⟨some "s1", some "rss", some "http://example.com/feed", none, none⟩
      ⟨some unchangedPrev, ⟨some "<rss/>", some "E2", none, some "", false, none⟩,
       unchangedItems, "2026-01-01T00:00:00+00:00"⟩ =
      .ok (none, [updateState "s1" (computeFingerprint unchangedItems 10) (some "E2") none none
                   "2026-01-01T00:00:00+00:00"]) :=
  (unchanged_run_updates_validators "s1" "rss" "http://example.com/feed"
    "2026-01-01T00:00:00+00:00" none none unchangedPrev
    ⟨some "<rss/>", some "E2", none, some "", false, none⟩ unchangedItems
    (by decide) rfl rfl (by decide) rfl).1

/-- C7: the fingerprint depends only on each retained item's id, normalized
title and link — item lists that agree item-by-item on that projection
(differing only in date, summary or extra fields such as tag) produce the
identical fingerprint, for every `max_items`. -/
theorem fingerprint_stable_fields_only (l1 l2 : List Item) (maxItems : Nat)
    (h : l1.map normalizeItem = l2.map normalizeItem) :
    computeFingerprint l1 maxItems = computeFingerprint l2 maxItems := by
  unfold computeFingerprint
  by_cases h1 : l1 = []
  · subst h1
    have h2 : l2 = [] := by
      cases l2 with
      | nil => rfl
      | cons a t => simp at h
    subst h2
    rfl
  · have h2 : l2 ≠ [] := by
      intro hc
      subst hc
      cases l1 with
      | nil => exact h1 rfl
      | cons a t => simp at h
    rw [if_neg h1, if_neg h2]
    show sha256Hex (strBytes (serNormList (pySortNorm ((l1.take maxItems).map normalizeItem)))) =
         sha256Hex (strBytes (serNormList (pySortNorm ((l2.take maxItems).map normalizeItem))))
    rw [List.map_take, List.map_take, h]

/-- First item list of the C7 witness. -/
def datedItemA : List Item := [⟨"x", "Hello  World", "http://l", "2024", some "s1", none⟩]

/-- Second item list of the C7 witness: same id/title/link, different date,
summary and tag. -/
def datedItemB : List Item := [⟨"x", "Hello  World", "http://l", "2025", some "other", some "v1"⟩]

/-- Witness for C7: items differing only in date, summary and tag hash
identically. -/
theorem fingerprint_stable_fields_only_witness :
    computeFingerprint datedItemA 10 = computeFingerprint datedItemB 10 :=
  fingerprint_stable_fields_only datedItemA datedItemB 10 (by decide)

/-! ## Order theory for the fingerprint sort -/

/-- Totality of the code-point comparison. -/
theorem charListLe_total : ∀ as bs : List Char, (charListLe as bs || charListLe bs as) = true := by
  intro as
  induction as with
  | nil => intro bs; simp [charListLe]
  | cons a as ih =>
    intro bs
    cases bs with
    | nil => simp [charListLe]
    | cons b bs =>
      by_cases hab : a.toNat < b.toNat
      · simp [charListLe, hab]
      · by_cases hba : b.toNat < a.toNat
        · simp [charListLe, hab, hba]
        · simpa [charListLe, hab, hba] using ih bs

/-- Transitivity of the code-point comparison. -/
theorem charListLe_trans :
    ∀ as bs cs : List Char, charListLe as bs = true → charListLe bs cs = true →
      charListLe as cs = true := by
  intro as
  induction as with
  | nil => intro bs cs _ _; rfl
  | cons a as ih =>
    intro bs cs h1 h2
    cases bs with
    | nil => simp [charListLe] at h1
    | cons b bs =>
      cases cs with
      | nil => simp [charListLe] at h2
      | cons c cs =>
        simp only [charListLe] at h1 h2 ⊢
        by_cases hab : a.toNat < b.toNat
        · rw [if_pos hab] at h1
          by_cases hbc : b.toNat < c.toNat
          · rw [if_pos (Nat.lt_trans hab hbc)]
          · rw [if_neg hbc] at h2
            by_cases hcb : c.toNat < b.toNat
            · rw [if_pos hcb] at h2; exact absurd h2 (by simp)
            · rw [if_pos (Nat.lt_of_lt_of_le hab (Nat.not_lt.mp hcb))]
        · rw [if_neg hab] at h1
          by_cases hba : b.toNat < a.toNat
          · rw [if_pos hba] at h1; exact absurd h1 (by simp)
          · rw [if_neg hba] at h1
            by_cases hbc : b.toNat < c.toNat
            · rw [if_pos (Nat.lt_of_le_of_lt (Nat.not_lt.mp hba) hbc)]
            · rw [if_neg hbc] at h2
              by_cases hcb : c.toNat < b.toNat
              · rw [if_pos hcb] at h2; exact absurd h2 (by simp)
              · rw [if_neg hcb] at h2
                rw [if_neg (Nat.not_lt.mpr
                      (Nat.le_trans (Nat.not_lt.mp hbc) (Nat.not_lt.mp hab))),
                    if_neg (Nat.not_lt.mpr
                      (Nat.le_trans (Nat.not_lt.mp hba) (Nat.not_lt.mp hcb)))]
                exact ih bs cs h1 h2

/-- Asymmetry of the strict code-point comparison. -/
theorem charListLt_asymm :
    ∀ as bs : List Char, charListLt as bs = true → charListLt bs as = true → False := by
  intro as
  induction as with
  | nil =>
    intro bs h1 h2
    cases bs with
    | nil => simp [charListLt] at h1
    | cons b bs => simp [charListLt] at h2
  | cons a as ih =>
    intro bs h1 h2
    cases bs with
    | nil => simp [charListLt] at h1
    | cons b bs =>
      simp only [charListLt] at h1 h2
      by_cases hab : a.toNat < b.toNat
      · rw [if_neg (Nat.lt_asymm hab), if_pos hab] at h2
        exact absurd h2 (by simp)
      · rw [if_neg hab] at h1
        by_cases hba : b.toNat < a.toNat
        · rw [if_pos hba] at h1; exact absurd h1 (by simp)
        · rw [if_neg hba] at h1
          rw [if_neg hba, if_neg hab] at h2
          exact ih bs h1 h2

/-- A weak comparison between distinct lists is strict. -/
theorem charListLe_ne_lt :
    ∀ as bs : List Char, charListLe as bs = true → as ≠ bs → charListLt as bs = true := by
  intro as
  induction as with
  | nil =>
    intro bs _ hne
    cases bs with
    | nil => exact absurd rfl hne
    | cons b bs => rfl
  | cons a as ih =>
    intro bs h1 hne
    cases bs with
    | nil => simp [charListLe] at h1
    | cons b bs =>
      simp only [charListLe] at h1
      simp only [charListLt]
      by_cases hab : a.toNat < b.toNat
      · rw [if_pos hab]
      · rw [if_neg hab] at h1 ⊢
        by_cases hba : b.toNat < a.toNat
        · rw [if_pos hba] at h1; exact absurd h1 (by simp)
        · rw [if_neg hba] at h1 ⊢
          have htn : a.toNat = b.toNat :=
            Nat.le_antisymm (Nat.not_lt.mp hba) (Nat.not_lt.mp hab)
          have hchar : a = b := Char.ext (UInt32.ext htn)
          subst hchar
          exact ih bs h1 (fun he => hne (by rw [he]))

/-- Weak key order on normalized items, as a proposition. -/
def KeyLeP (a b : NormItem) : Prop := keyLe a b = true

/-- Strict key order on normalized items, as a proposition. -/
def KeyLtP (a b : NormItem) : Prop := charListLt (sortKey a).data (sortKey b).data = true

/-- Stable insertion permutes to consing. -/
theorem sinsert_perm (a : NormItem) (l : List NormItem) : (sinsert a l).Perm (a :: l) := by
  induction l with
  | nil => exact List.Perm.refl _
  | cons b t ih =>
    unfold sinsert
    split
    · exact (ih.cons b).trans (List.Perm.swap a b t)
    · exact List.Perm.refl _

/-- The fold of stable insertions permutes to appending. -/
theorem pySort_perm_aux :
    ∀ (l acc : List NormItem), (l.foldl (fun acc a => sinsert a acc) acc).Perm (acc ++ l) := by
  intro l
  induction l with
  | nil => intro acc; simp
  | cons a t ih =>
    intro acc
    simp only [List.foldl_cons]
    exact (ih (sinsert a acc)).trans
      (((sinsert_perm a acc).append_right t).trans List.perm_middle.symm)

/-- The stable sort is a permutation of its input. -/
theorem pySort_perm (l : List NormItem) : (pySortNorm l).Perm l := by
  simpa [pySortNorm] using pySort_perm_aux l []

/-- Totality of the key comparison. -/
theorem keyLe_total (a b : NormItem) : keyLe a b = true ∨ keyLe b a = true := by
  simpa [keyLe, strLe, Bool.or_eq_true] using
    charListLe_total (sortKey a).data (sortKey b).data

/-- Transitivity of the key comparison. -/
theorem keyLe_trans {a b c : NormItem} (h1 : keyLe a b = true) (h2 : keyLe b c = true) :
    keyLe a c = true :=
  charListLe_trans _ _ _ h1 h2

/-- Stable insertion preserves sortedness. -/
theorem pairwise_sinsert (a : NormItem) (l : List NormItem)
    (h : l.Pairwise KeyLeP) : (sinsert a l).Pairwise KeyLeP := by
  induction l with
  | nil => simp [sinsert, KeyLeP]
  | cons b t ih =>
    rw [List.pairwise_cons] at h
    unfold sinsert
    split
    case isTrue hba =>
      rw [List.pairwise_cons]
      refine ⟨?_, ih h.2⟩
      intro x hx
      have hx2 : x = a ∨ x ∈ t := by
        simpa using (sinsert_perm a t).mem_iff.mp hx
      rcases hx2 with rfl | hx2
      · exact hba
      · exact h.1 x hx2
    case isFalse hba =>
      have hab : keyLe a b = true := by
        rcases keyLe_total a b with hab | hba2
        · exact hab
        · exact absurd hba2 hba
      rw [List.pairwise_cons]
      refine ⟨?_, List.pairwise_cons.mpr ⟨h.1, h.2⟩⟩
      intro x hx
      rcases List.mem_cons.mp hx with rfl | hx2
      · exact hab
      · exact keyLe_trans hab (h.1 x hx2)

/-- The stable sort output is sorted under the key comparison. -/
theorem pairwise_pySort (l : List NormItem) : (pySortNorm l).Pairwise KeyLeP := by
  have haux : ∀ (l acc : List NormItem), acc.Pairwise KeyLeP →
      (l.foldl (fun acc a => sinsert a acc) acc).Pairwise KeyLeP := by
    intro l
    induction l with
    | nil => intro acc h; simpa using h
    | cons a t ih => intro acc h; exact ih _ (pairwise_sinsert a acc h)
  simpa [pySortNorm] using haux l [] (by simp)

/-- Two sorted permutations of each other with pairwise-distinct sort keys
are equal — sorting is unique when no two elements share a key. -/
theorem sorted_nodupkeys_unique (s1 s2 : List NormItem)
    (hp : s1.Perm s2) (h1 : s1.Pairwise KeyLeP) (h2 : s2.Pairwise KeyLeP)
    (hnd : (s1.map sortKey).Nodup) : s1 = s2 := by
  haveI : IsAntisymm NormItem KeyLtP :=
    ⟨fun a b hab hba => (charListLt_asymm _ _ hab hba).elim⟩
  have hnd2 : (s2.map sortKey).Nodup := ((hp.map sortKey).nodup_iff).mp hnd
  have hstrict : ∀ (s : List NormItem), s.Pairwise KeyLeP → (s.map sortKey).Nodup →
      s.Pairwise KeyLtP := by
    intro s hs hn
    have hne : s.Pairwise (fun a b => sortKey a ≠ sortKey b) := List.pairwise_map.mp hn
    exact (hs.and hne).imp (fun {a b} hab =>
      charListLe_ne_lt _ _ hab.1 (fun he => hab.2 (String.ext he)))
  exact List.eq_of_perm_of_sorted hp (hstrict s1 h1 hnd) (hstrict s2 h2 hnd2)

/-- C1 (amended): for item lists of length at most `max_items` whose
normalized items have pairwise-distinct sort keys (id, else link), the
fingerprint is invariant under every permutation of the list. -/
theorem fingerprint_perm_invariant (l1 l2 : List Item) (maxItems : Nat)
    (hp : l1.Perm l2) (hlen : l1.length ≤ maxItems)
    (hkeys : (l1.map (fun it => sortKey (normalizeItem it))).Nodup) :
    computeFingerprint l1 maxItems = computeFingerprint l2 maxItems := by
  unfold computeFingerprint
  by_cases h1 : l1 = []
  · subst h1
    have h2 : l2 = [] := hp.symm.eq_nil
    subst h2
    rfl
  · have h2 : l2 ≠ [] := fun hc => h1 ((hc ▸ hp : l1.Perm []).eq_nil)
    rw [if_neg h1, if_neg h2]
    have hlen2 : l2.length ≤ maxItems := hp.length_eq ▸ hlen
    show sha256Hex (strBytes (serNormList (pySortNorm ((l1.take maxItems).map normalizeItem)))) =
         sha256Hex (strBytes (serNormList (pySortNorm ((l2.take maxItems).map normalizeItem))))
    rw [List.take_of_length_le hlen, List.take_of_length_le hlen2]
    have hperm : (pySortNorm (l1.map normalizeItem)).Perm (pySortNorm (l2.map normalizeItem)) :=
      (pySort_perm _).trans ((hp.map normalizeItem).trans (pySort_perm _).symm)
    have hmm : ((l1.map normalizeItem).map sortKey).Nodup := by
      rw [List.map_map]
      exact hkeys
    have hnd : ((pySortNorm (l1.map normalizeItem)).map sortKey).Nodup :=
      (((pySort_perm (l1.map normalizeItem)).map sortKey).nodup_iff).mpr hmm
    rw [sorted_nodupkeys_unique _ _ hperm (pairwise_pySort _) (pairwise_pySort _) hnd]

/-- First item of the C1 counterexample: shares its sort key with the second. -/
def dupKeyItemA : Item := mkItem "a" "t1" ""

/-- Second item of the C1 counterexample. -/
def dupKeyItemB : Item := mkItem "a" "t2" ""

/-- Counterexample for C1: two items sharing the sort key `"a"` but with
different titles — the stable sort preserves their relative order, so the
two orderings serialize differently and hash to different digests. -/
theorem fingerprint_not_perm_invariant :
    ([dupKeyItemB, dupKeyItemA].Perm [dupKeyItemA, dupKeyItemB]) ∧
    computeFingerprint [dupKeyItemA, dupKeyItemB] 10 ≠
      computeFingerprint [dupKeyItemB, dupKeyItemA] 10 := by
  refine ⟨List.Perm.swap dupKeyItemA dupKeyItemB [], ?_⟩
  decide

/-- Witness for C1 (amended): two items with distinct keys hash identically
in either order. -/
theorem fingerprint_perm_invariant_witness :
    computeFingerprint [mkItem "b" "B" "", mkItem "a" "A" ""] 10 =
      computeFingerprint [mkItem "a" "A" "", mkItem "b" "B" ""] 10 :=
  fingerprint_perm_invariant [mkItem "b" "B" "", mkItem "a" "A" ""]
    [mkItem "a" "A" "", mkItem "b" "B" ""] 10
    (List.Perm.swap (mkItem "a" "A" "") (mkItem "b" "B" "") []) (by decide) (by decide)

/-- A feed entry with every field absent — in particular no title. -/
def untitledEntry : FeedEntry := ⟨none, none, none, none, [], none, none, none, none, none, []⟩

/-- A well-formed feed (not malformed) whose only entry lacks a title. -/
def untitledFeed : ParsedFeed := ⟨false, [untitledEntry]⟩

/-- Counterexample for C5: the GitHub releases adapter does not discard an
entry without a title — it substitutes the extracted tag version or the
literal `"Unknown Release"`, so a well-formed feed whose only entry lacks a
title yields one item, not the empty list. -/
theorem github_keeps_untitled_entry :
    githubExtract untitledFeed 10 ≠ [] ∧
    githubExtract untitledFeed 10 = [⟨"", "Unknown Release", "", "", some "", some ""⟩] := by
  exact ⟨by decide, by decide⟩

/-- C5 (amended): malformed feeds with zero parseable entries yield `[]`
from every feed adapter; the RSS and Atom adapters discard an entry whose
stripped title is empty; every item returned by any of the five adapters
carries a non-empty title — but the GitHub releases adapter reaches that by
substituting the tag version or `"Unknown Release"` instead of discarding. -/
theorem adapter_title_discipline :
    (∀ feed maxItems, feed.bozo = true → feed.entries = [] →
        rssExtract feed maxItems = [] ∧ atomExtract feed maxItems = [] ∧
        githubExtract feed maxItems = []) ∧
    (∀ e, pyStrip (e.title.getD "") = "" →
        rssParseEntry e = none ∧ atomParseEntry e = none) ∧
    (∀ feed maxItems it, it ∈ rssExtract feed maxItems → it.title ≠ "") ∧
    (∀ feed maxItems it, it ∈ atomExtract feed maxItems → it.title ≠ "") ∧
    (∀ feed maxItems it, it ∈ githubExtract feed maxItems → it.title ≠ "") ∧
    (∀ views baseUrl maxItems it, it ∈ htmlArticlesExtract views baseUrl maxItems →
        it.title ≠ "") ∧
    (∀ views baseUrl maxItems it, it ∈ htmlChangelogExtract views baseUrl maxItems →
        it.title ≠ "") := by
  refine ⟨?_, ?_, ?_, ?_, ?_, ?_, ?_⟩
  · intro feed maxItems h1 h2
    refine ⟨?_, ?_, ?_⟩ <;> simp [rssExtract, atomExtract, githubExtract, h1, h2]
  · intro e h
    exact ⟨by simp [rssParseEntry, h], by simp [atomParseEntry, h]⟩
  · intro feed maxItems it hit
    simp only [rssExtract] at hit
    split at hit
    · simp at hit
    · rcases List.mem_filterMap.mp hit with ⟨e, _, hpe⟩
      simp only [rssParseEntry] at hpe
      by_cases ht : pyStrip (e.title.getD "") = ""
      · rw [if_pos ht] at hpe; cases hpe
      · rw [if_neg ht] at hpe
        have h2 := Option.some.inj hpe
        subst h2
        exact ht
  · intro feed maxItems it hit
    simp only [atomExtract] at hit
    split at hit
    · simp at hit
    · rcases List.mem_filterMap.mp hit with ⟨e, _, hpe⟩
      simp only [atomParseEntry] at hpe
      by_cases ht : pyStrip (e.title.getD "") = ""
      · rw [if_pos ht] at hpe; cases hpe
      · rw [if_neg ht] at hpe
        have h2 := Option.some.inj hpe
        subst h2
        exact ht
  · intro feed maxItems it hit
    simp only [githubExtract] at hit
    split at hit
    · simp at hit
    · rcases List.mem_filterMap.mp hit with ⟨e, _, hpe⟩
      simp only [githubParseEntry] at hpe
      have h2 := Option.some.inj hpe
      subst h2
      by_cases h0 : pyStrip (e.title.getD "") = ""
      · by_cases htag : extractTagVersion (e.id.getD "") (e.title.getD "") = "" <;>
          simp [h0, htag]
      · simp [h0]
  · intro views baseUrl maxItems it hit
    simp only [htmlArticlesExtract] at hit
    split at hit
    · simp at hit
    · rcases List.mem_filterMap.mp hit with ⟨v, _, hfv⟩
      rcases hcase : articlesParseItem v baseUrl with _ | it2
      · rw [hcase] at hfv; cases hfv
      · rw [hcase] at hfv
        have hfv2 : (if it2.title = "" then none else some it2) = some it := hfv
        by_cases ht : it2.title = ""
        · rw [if_pos ht] at hfv2; cases hfv2
        · rw [if_neg ht] at hfv2
          have h2 := Option.some.inj hfv2
          subst h2
          exact ht
  · intro views baseUrl maxItems it hit
    simp only [htmlChangelogExtract] at hit
    split at hit
    · simp at hit
    · rcases List.mem_filterMap.mp hit with ⟨v, _, hfv⟩
      rcases hcase : changelogParseEntry v baseUrl with _ | it2
      · rw [hcase] at hfv; cases hfv
      · rw [hcase] at hfv
        have hfv2 : (if it2.title = "" then none else some it2) = some it := hfv
        by_cases ht : it2.title = ""
        · rw [if_pos ht] at hfv2; cases hfv2
        · rw [if_neg ht] at hfv2
          have h2 := Option.some.inj hfv2
          subst h2
          exact ht

/-- A complete single-entry feed used by the adapter witnesses. -/
def simpleEntry : FeedEntry :=
  ⟨some "id1", none, some "T", some "http://a", [], some "2024", none, none, some "sum", none, []⟩

/-- A well-formed feed with one fully-populated entry. -/
def simpleFeed : ParsedFeed := ⟨false, [simpleEntry]⟩

/-- Witness for C5 (amended): a malformed empty feed yields `[]`, a
title-less entry is discarded by the RSS adapter, and a concrete extracted
item has a non-empty title. -/
theorem adapter_title_discipline_witness :
    rssExtract ⟨true, []⟩ 7 = [] ∧
    rssParseEntry untitledEntry = none ∧
    (⟨"id1", "T", "http://a", "2024", some "sum", none⟩ : Item).title ≠ "" :=
  ⟨(adapter_title_discipline.1 ⟨true, []⟩ 7 rfl rfl).1,
   (adapter_title_discipline.2.1 untitledEntry (by decide)).1,
   adapter_title_discipline.2.2.1 simpleFeed 10 ⟨"id1", "T", "http://a", "2024", some "sum", none⟩
     (by decide)⟩

/-! ## Summary length bounds -/

/-- Python slicing bounds the length. -/
theorem pyTake_length_le (s : String) (n : Nat) : (pyTake s n).length ≤ n := by
  show (s.data.take n).length ≤ n
  rw [List.length_take]
  exact Nat.min_le_left _ _

/-- The feed-content summary loop yields at most 500 characters. -/
theorem contentSummary_le (l : List FeedContent) : (contentSummary l).length ≤ 500 := by
  induction l with
  | nil => simp [contentSummary]
  | cons c rest ih =>
    cases rest with
    | nil => exact pyTake_length_le _ _
    | cons d t =>
      simp only [contentSummary]
      split
      · exact ih
      · exact pyTake_length_le _ _

/-- Length bound for the newline join of short lines. -/
theorem joinNl_length_le : ∀ l : List String, (∀ s ∈ l, s.length ≤ 102) →
    (joinNl l).length ≤ 103 * l.length - 1 := by
  intro l
  induction l with
  | nil => intro _; simp [joinNl]
  | cons s rest ih =>
    intro hb
    cases rest with
    | nil =>
      have h1 := hb s (by simp)
      simp only [joinNl, List.length_cons, List.length_nil]
      omega
    | cons d t =>
      have h1 := hb s (by simp)
      have h2 := ih (fun x hx => hb x (by simp [hx]))
      have hnl : ("\n" : String).length = 1 := rfl
      simp only [joinNl, String.length_append] at h2 ⊢
      simp only [List.length_cons] at h2 ⊢
      omega

/-- The changelog summarizer yields at most 514 characters: up to five
bulleted lines of at most 102 characters joined by newlines, or a
300-character truncation. -/
theorem summarizeContent_le (sv : SummView) : (summarizeContent sv).length ≤ 514 := by
  unfold summarizeContent
  split
  · have hb : ∀ s ∈ (sv.liTexts.take 5).filterMap
        (fun t => if t = "" then none else some ("• " ++ pyTake t 100)), s.length ≤ 102 := by
      intro s hs
      rcases List.mem_filterMap.mp hs with ⟨t, _, hft⟩
      by_cases ht : t = ""
      · rw [if_pos ht] at hft; cases hft
      · rw [if_neg ht] at hft
        have h2 := Option.some.inj hft
        subst h2
        rw [String.length_append]
        have h3 := pyTake_length_le t 100
        have h4 : ("• " : String).length = 2 := rfl
        omega
    have hlen : ((sv.liTexts.take 5).filterMap
        (fun t => if t = "" then none else some ("• " ++ pyTake t 100))).length ≤ 5 := by
      refine le_trans (List.length_filterMap_le _ _) ?_
      rw [List.length_take]
      exact Nat.min_le_left _ _
    have hj := joinNl_length_le _ hb
    omega
  · exact le_trans (pyTake_length_le _ _) (by omega)

/-- The changelog entry summary is bounded by 514 characters on every path. -/
theorem changelogSummary_le (v : ChangelogEntryView) : (changelogSummary v).length ≤ 514 := by
  simp only [changelogSummary]
  split
  · rcases v.q_list with _ | sv
    · exact le_trans (pyTake_length_le _ _) (by omega)
    · exact summarizeContent_le _
  · rcases v.q_contentSel with _ | sv
    · simp
    · exact summarizeContent_le _

/-- Text of one hundred characters, for the long-bullet counterexample. -/
def longLi : String := String.mk (List.replicate 100 'a')

/-- Changelog entry view whose content selector matched a list of five long
items. -/
def bulletView : ChangelogEntryView :=
  ⟨some ⟨"v1.0.0", "h2", none, none⟩, none, none, none, "div", "", none, none, none,
   some ⟨[longLi, longLi, longLi, longLi, longLi], ""⟩, none, "", "", none⟩

/-- Counterexample for C8: the changelog adapter's bulleted summary of five
100-character list items is 514 characters long — more than the claimed
500-character cap. -/
theorem changelog_summary_exceeds_500 :
    ∃ it ∈ htmlChangelogExtract [bulletView] "http://x" 10,
      500 < (it.summary.getD "").length := by
  decide

/-- C8 (amended): the feed adapters truncate summaries to at most 500
characters; the `html_articles` adapter emits items with no summary field at
all; the `html_changelog` adapter bounds summaries by 514 characters (five
bulleted 102-character lines joined by newlines), not 500. -/
theorem adapter_summary_bounds :
    (∀ feed maxItems it, it ∈ rssExtract feed maxItems →
        (it.summary.getD "").length ≤ 500) ∧
    (∀ feed maxItems it, it ∈ atomExtract feed maxItems →
        (it.summary.getD "").length ≤ 500) ∧
    (∀ feed maxItems it, it ∈ githubExtract feed maxItems →
        (it.summary.getD "").length ≤ 500) ∧
    (∀ views baseUrl maxItems it, it ∈ htmlArticlesExtract views baseUrl maxItems →
        it.summary = none) ∧
    (∀ views baseUrl maxItems it, it ∈ htmlChangelogExtract views baseUrl maxItems →
        (it.summary.getD "").length ≤ 514) := by
  refine ⟨?_, ?_, ?_, ?_, ?_⟩
  · intro feed maxItems it hit
    simp only [rssExtract] at hit
    split at hit
    · simp at hit
    · rcases List.mem_filterMap.mp hit with ⟨e, _, hpe⟩
      simp only [rssParseEntry] at hpe
      by_cases ht : pyStrip (e.title.getD "") = ""
      · rw [if_pos ht] at hpe; cases hpe
      · rw [if_neg ht] at hpe
        have h2 := Option.some.inj hpe
        subst h2
        show ((if pyTruthy e.summary then pyTake (cleanHtml (e.summary.getD "")) 500
               else if pyTruthy e.description then pyTake (cleanHtml (e.description.getD "")) 500
               else "").length ≤ 500)
        split
        · exact pyTake_length_le _ _
        · split
          · exact pyTake_length_le _ _
          · simp
  · intro feed maxItems it hit
    simp only [atomExtract] at hit
    split at hit
    · simp at hit
    · rcases List.mem_filterMap.mp hit with ⟨e, _, hpe⟩
      simp only [atomParseEntry] at hpe
      by_cases ht : pyStrip (e.title.getD "") = ""
      · rw [if_pos ht] at hpe; cases hpe
      · rw [if_neg ht] at hpe
        have h2 := Option.some.inj hpe
        subst h2
        show ((if pyTruthy e.summary then pyTake (cleanHtml (e.summary.getD "")) 500
               else if e.content ≠ [] then contentSummary e.content
               else "").length ≤ 500)
        split
        · exact pyTake_length_le _ _
        · split
          · exact contentSummary_le _
          · simp
  · intro feed maxItems it hit
    simp only [githubExtract] at hit
    split at hit
    · simp at hit
    · rcases List.mem_filterMap.mp hit with ⟨e, _, hpe⟩
      simp only [githubParseEntry] at hpe
      have h2 := Option.some.inj hpe
      subst h2
      show ((if e.content ≠ [] then contentSummary e.content
             else if pyTruthy e.summary then pyTake (cleanHtml (e.summary.getD "")) 500
             else "").length ≤ 500)
      split
      · exact contentSummary_le _
      · split
        · exact pyTake_length_le _ _
        · simp
  · intro views baseUrl maxItems it hit
    simp only [htmlArticlesExtract] at hit
    split at hit
    · simp at hit
    · rcases List.mem_filterMap.mp hit with ⟨v, _, hfv⟩
      rcases hcase : articlesParseItem v baseUrl with _ | it2
      · rw [hcase] at hfv; cases hfv
      · rw [hcase] at hfv
        have hfv2 : (if it2.title = "" then none else some it2) = some it := hfv
        by_cases ht : it2.title = ""
        · rw [if_pos ht] at hfv2; cases hfv2
        · rw [if_neg ht] at hfv2
          have h2 := Option.some.inj hfv2
          subst h2
          simp only [articlesParseItem] at hcase
          split at hcase
          · cases hcase
          · split at hcase
            · cases hcase
            · have h3 := Option.some.inj hcase
              rw [← h3]
  · intro views baseUrl maxItems it hit
    simp only [htmlChangelogExtract] at hit
    split at hit
    · simp at hit
    · rcases List.mem_filterMap.mp hit with ⟨v, _, hfv⟩
      rcases hcase : changelogParseEntry v baseUrl with _ | it2
      · rw [hcase] at hfv; cases hfv
      · rw [hcase] at hfv
        have hfv2 : (if it2.title = "" then none else some it2) = some it := hfv
        by_cases ht : it2.title = ""
        · rw [if_pos ht] at hfv2; cases hfv2
        · rw [if_neg ht] at hfv2
          have h2 := Option.some.inj hfv2
          subst h2
          simp only [changelogParseEntry] at hcase
          by_cases hT : changelogTitle v = ""
          · rw [if_pos hT] at hcase; cases hcase
          · rw [if_neg hT] at hcase
            have h3 := Option.some.inj hcase
            rw [← h3]
            exact changelogSummary_le v

/-- Witness for C8 (amended): the concrete extracted RSS item's summary is
within the 500-character cap. -/
theorem adapter_summary_bounds_witness :
    (((⟨"id1", "T", "http://a", "2024", some "sum", none⟩ : Item).summary.getD "").length ≤ 500) :=
  adapter_summary_bounds.1 simpleFeed 10 ⟨"id1", "T", "http://a", "2024", some "sum", none⟩
    (by decide)

end Monitor
